import Mathlib

/-!
Shallow embedding of the chunked result materializer of
`mstrio/project_objects/report.py` (`Report.to_dataframe`,
`Report.__fetch_chunks`, `Report.__fetch_chunks_future`,
`Report.__init__`, `Report.apply_filters`), together with proofs of the
specification's claims about it.

Modelling conventions: Python integers are Lean `Int`; Python `int(a / b)`
(true division truncated toward zero, exact on the integer ranges involved)
is `Int.tdiv`; Python `%` on integers is `Int.fmod`; Python `range` with a
positive step is `pyRange`; exceptions are `Except` errors. Rows are kept
abstract (a type parameter), since the parser appends each page's parsed
rows in the order the driving loop consumes responses.
-/

namespace Mstrio

/-- Errors surfaced by the embedded code: `zeroDivision` models Python's
`ZeroDivisionError` (raised by `/` when the divisor is 0), `httpError`
models a failed HTTP chunk fetch (`requests` exception or
`response_handler` on a non-ok response), carrying the offset and limit
of the failing chunk. -/
inductive PyError where
  | zeroDivision : PyError
  | httpError : Int → Int → PyError
deriving Repr, DecidableEq

/-- Python `int(a / b)`: fails with `ZeroDivisionError` when `b = 0`,
otherwise truncates toward zero (`Int.tdiv`). -/
def pydivTrunc (a b : Int) : Except PyError Int :=
  if b = 0 then .error .zeroDivision else .ok (a.tdiv b)

/-- Length of Python `range(start, stop, step)` for a positive `step`
(the program only reaches `range` with a positive step; for a
non-positive step we return 0, which also matches Python whenever
`start < stop`). -/
def pyRangeLen (start stop step : Int) : Nat :=
  if start < stop ∧ 0 < step then ((stop - start + step - 1).fdiv step).toNat else 0

/-- `n` arithmetic-progression terms from `start` with stride `step`. -/
def pyRangeAux (start step : Int) : Nat → List Int
  | 0 => []
  | Nat.succ n => start :: pyRangeAux (start + step) step n

/-- Python `range(start, stop, step)` as a list, for positive `step`. -/
def pyRange (start stop step : Int) : List Int :=
  pyRangeAux start step (pyRangeLen start stop step)

/-- One fetched page, as the code reads it off the JSON response:
`rows` are the parsed data rows, `current` and `total` are
`data.paging.current` and `data.paging.total`, and `rawByteSize` is
`len(res.content)`, the byte length of the raw response body. -/
structure Page (Row : Type) where
  rows : List Row
  current : Int
  total : Int
  rawByteSize : Nat
deriving Repr, DecidableEq

/-- The fetch primitive (`Report.__get_chunk` / the REST layer): given an
offset and a limit it yields a page or fails. -/
def Fetch (Row : Type) : Type := Int → Int → Except PyError (Page Row)

/-- `Report._SIZE_LIMIT = 10000000` — the desired chunk size in bytes. -/
def SIZE_LIMIT : Int := 10000000

/-- Python truthiness of the `limit` argument (`if limit:`): `None` and
`0` are falsy. -/
def limitTruthy : Option Int → Bool
  | none => false
  | some l => l != 0

/-- The value `self._initial_limit` holds when the first page is fetched:
the default 1000, overwritten by `limit` when `limit` is truthy
(`to_dataframe` lines 289-290). -/
def initialLimitOf (reqLimit : Option Int) : Int :=
  if limitTruthy reqLimit then reqLimit.getD 1000 else 1000

/-- The derived chunk limit
`max(1000, int((self._initial_limit * self._SIZE_LIMIT) / len(res.content)))`
(`to_dataframe` lines 316-319), computed when no truthy `limit` was
requested. -/
def derivedLimit (initialLimit : Int) (rawByteSize : Nat) : Except PyError Int :=
  (pydivTrunc (initialLimit * SIZE_LIMIT) (rawByteSize : Int)).map (fun d => max 1000 d)

/-- The iteration count
`int((paging['total'] - self._initial_limit) / limit)
 + ((paging['total'] - self._initial_limit) % limit != 0)`
(`to_dataframe` lines 321-323). -/
def itTotalCode (total initialLimit limit : Int) : Int :=
  (total - initialLimit).tdiv limit
    + (if (total - initialLimit).fmod limit ≠ 0 then 1 else 0)

/-- Sequential fetch/merge loop (`Report.__fetch_chunks`): walk the offset
list in order, fetch each chunk, append its parsed rows to the
accumulated table; the first fetch error aborts the loop and is
surfaced, with no further fetch issued. -/
def fetchSeq {Row : Type} (fetch : Fetch Row) (offsets : List Int) (limit : Int)
    (acc : List Row) : Except PyError (List Row) :=
  match offsets with
  | [] => .ok acc
  | o :: rest =>
    match fetch o limit with
    | .error e => .error e
    | .ok page => fetchSeq fetch rest limit (acc ++ page.rows)

/-- The consuming loop of the parallel path (`to_dataframe` lines
339-349): the futures' results are read in the order the futures were
created (ascending offsets), each response parsed in that order; a
non-ok response raises via `response_handler`. -/
def mergeFutures {Row : Type} (results : List (Except PyError (Page Row)))
    (acc : List Row) : Except PyError (List Row) :=
  match results with
  | [] => .ok acc
  | r :: rest =>
    match r with
    | .error e => .error e
    | .ok page => mergeFutures rest (acc ++ page.rows)

/-- Parallel fetch/merge (`Report.__fetch_chunks_future` plus the
consuming loop): all chunk requests are dispatched (one future per
offset, in ascending offset order), then merged in creation order. -/
def fetchPar {Row : Type} (fetch : Fetch Row) (offsets : List Int) (limit : Int)
    (acc : List Row) : Except PyError (List Row) :=
  mergeFutures (offsets.map (fun o => fetch o limit)) acc

/-- The chunk limit used for the additional fetches (`to_dataframe`
lines 315-319): the requested `limit` when truthy, otherwise the value
derived from the first page's byte size. -/
def chunkLimitE {Row : Type} (reqLimit : Option Int) (firstPage : Page Row) :
    Except PyError Int :=
  if limitTruthy reqLimit then .ok (reqLimit.getD 1000)
  else derivedLimit (initialLimitOf reqLimit) firstPage.rawByteSize

/-- The multi-page part of `to_dataframe` (lines 315-352), run when
`paging.current != paging.total`: derive the chunk limit, compute
`it_total`, and run the parallel fan-out when
`self._parallel and it_total > 1`, else the sequential loop, over
offsets `range(initial_limit, paging.total, limit)`. -/
def fetchRest {Row : Type} (fetch : Fetch Row) (reqLimit : Option Int)
    (parallel : Bool) (firstPage : Page Row) : Except PyError (List Row) :=
  match chunkLimitE reqLimit firstPage with
  | .error e => .error e
  | .ok limit =>
    if parallel ∧ 1 < itTotalCode firstPage.total (initialLimitOf reqLimit) limit then
      fetchPar fetch (pyRange (initialLimitOf reqLimit) firstPage.total limit)
        limit firstPage.rows
    else
      fetchSeq fetch (pyRange (initialLimitOf reqLimit) firstPage.total limit)
        limit firstPage.rows

/-- `Report.to_dataframe` (lines 275-355), materializing the report rows
(the cross-tab post-filtering of lines 358-420 operates on an already
complete table and is outside the claims about the fetch pipeline):
fetch the first page with `initialLimitOf reqLimit`; if
`paging.current == paging.total` the single page suffices, otherwise
the remaining chunks are fetched and merged after it. -/
def toDataframe {Row : Type} (fetch : Fetch Row) (reqLimit : Option Int)
    (parallel : Bool) : Except PyError (List Row) :=
  match fetch 0 (initialLimitOf reqLimit) with
  | .error e => .error e
  | .ok firstPage =>
    if firstPage.current = firstPage.total then
      .ok firstPage.rows
    else
      fetchRest fetch reqLimit parallel firstPage

/-- An honest paginated source over an abstract row family: the row at
source offset `i` is `row i`, there are `total` rows, every page reports
the same `total`, `current` is the number of rows in the returned page,
and every response body has `byteSize` bytes. `fetch offset limit`
returns rows `offset, offset+1, ...` up to `min (offset+limit) total`. -/
def honestFetch {Row : Type} (row : Nat → Row) (total byteSize : Nat) : Fetch Row :=
  fun offset limit =>
    let o := offset.toNat
    let cnt := min limit.toNat (total - o)
    .ok { rows := (List.range cnt).map (fun i => row (o + i)),
          current := (cnt : Int),
          total := (total : Int),
          rawByteSize := byteSize }

/-- A source whose second page reports a different `total` than the first:
page at offset 0 has 50 rows (`current = 50`) and reports `total = 100`;
every later page has the next 50 rows and reports `total = t2`. -/
def incFetch (t2 : Int) : Fetch Nat := fun offset _limit =>
  if offset = 0 then
    .ok { rows := List.range 50, current := 50, total := 100, rawByteSize := 1000 }
  else
    .ok { rows := (List.range 50).map (fun i => 50 + i), current := 50, total := t2,
          rawByteSize := 1000 }

/-- A source whose first page reports a negative `total = -5` while
returning 10 rows. -/
def negTotalFetch : Fetch Nat := fun offset _limit =>
  if offset = 0 then
    .ok { rows := List.range 10, current := 10, total := -5, rawByteSize := 40 }
  else
    .ok { rows := [], current := 0, total := -5, rawByteSize := 0 }

/-- A source whose first page has an empty raw body (`rawByteSize = 0`)
while reporting more rows to fetch (`current = 3`, `total = 100`). -/
def zeroByteFetch : Fetch Nat := fun offset _limit =>
  if offset = 0 then
    .ok { rows := List.range 3, current := 3, total := 100, rawByteSize := 0 }
  else
    .ok { rows := [], current := 0, total := 100, rawByteSize := 0 }

/-- The error raised by `Report.__init__` on a falsy id. -/
inductive InitError where
  | valueError : InitError
deriving Repr, DecidableEq

/-- Effects performed by `Report.__init__` after the id guard:
`connection._validate_project_selected()` and `Entity.__init__`
(which contacts the server to load object metadata). -/
inductive RemoteCall where
  | validateProjectSelected : RemoteCall
  | entityInit : RemoteCall
deriving Repr, DecidableEq

/-- `Report.__init__` (lines 196-230): `if not id: raise ValueError(...)`
comes first (for a `str`, `not id` holds exactly for the empty string);
only afterwards the connection validation and the `Entity` constructor
run. The trace of performed calls after the guard is abstracted as the
`rest` argument, since those callees live outside this module. -/
def reportInit (id : String) (rest : List RemoteCall) :
    Except InitError Unit × List RemoteCall :=
  if id = "" then (.error .valueError, [])
  else (.ok (), rest)

/-- The selection state held by the report's `Filter` object. -/
structure FilterSel where
  attrSelected : List String
  metrSelected : List String
  attrElemSelected : List String
  operator : String
deriving Repr, DecidableEq

/-- The `_cross_tab_filter` dict set by `apply_filters` on cross-tab
reports. -/
structure CrossTabFilter where
  attributes : Option (List String)
  metrics : Option (List String)
  attrElements : Option (List String)
deriving Repr, DecidableEq

/-- The slice of `Report` state that `apply_filters` can read or write. -/
structure ReportState where
  crossTab : Bool
  crossTabFilter : Option CrossTabFilter
  filter : FilterSel
  instanceId : Option String
deriving Repr, DecidableEq

/-- `Report.apply_filters` (lines 494-536):
`filtering_is_requested = bool(not all(e is None for e in [attributes,
metrics, attr_elements]))`; on a cross-tab report the `_cross_tab_filter`
dict is stored; otherwise, if filtering is requested, the filter is
cleared and re-selected (the `Filter` interactions of lines 528-534,
living in `mstrio/utils/filter.py` outside this module, abstracted as
`applySel`) and `instance_id` is reset to `None`; otherwise nothing
happens. -/
def applyFilters
    (applySel : Option (List String) → Option (List String) → Option (List String) →
      String → FilterSel → FilterSel)
    (attributes metrics attrElements : Option (List String)) (operator : String)
    (s : ReportState) : ReportState :=
  let filteringIsRequested :=
    ¬(attributes = none ∧ metrics = none ∧ attrElements = none)
  if s.crossTab then
    { s with crossTabFilter := some ⟨attributes, metrics, attrElements⟩ }
  else if filteringIsRequested then
    { s with filter := applySel attributes metrics attrElements operator s.filter,
             instanceId := none }
  else s

/-! ### Helper lemmas -/

/-- Consuming the dispatched futures in creation order is the same fold as
the sequential loop: both stop at the first error and append pages in
list order. -/
lemma fetchPar_eq_fetchSeq {Row : Type} (fetch : Fetch Row) (offsets : List Int)
    (limit : Int) (acc : List Row) :
    fetchPar fetch offsets limit acc = fetchSeq fetch offsets limit acc := by
  induction offsets generalizing acc with
  | nil => rfl
  | cons o rest ih =>
    simp only [fetchPar, List.map_cons, mergeFutures, fetchSeq]
    cases fetch o limit with
    | error e => rfl
    | ok page => exact ih (acc ++ page.rows)

lemma pyRangeAux_length (start step : Int) (n : Nat) :
    (pyRangeAux start step n).length = n := by
  induction n generalizing start with
  | zero => rfl
  | succ n ih => simp [pyRangeAux, ih]

/-- The range produced by `pyRangeLen` steps reaches the stop value. -/
lemma pyRangeLen_cover (start stop step : Int) (hstep : 0 < step) :
    stop ≤ start + (pyRangeLen start stop step : Int) * step := by
  unfold pyRangeLen
  split
  case isTrue h =>
    obtain ⟨hlt, hs⟩ := h
    set x : Int := stop - start + step - 1 with hx
    have hx0 : 0 ≤ x := by omega
    have hfd : x.fdiv step = x / step := Int.fdiv_eq_ediv x (le_of_lt hs)
    have hq0 : 0 ≤ x / step := Int.ediv_nonneg hx0 (le_of_lt hs)
    rw [hfd, Int.toNat_of_nonneg hq0]
    have hdm : step * (x / step) + x % step = x := Int.ediv_add_emod x step
    have hr : x % step < step := Int.emod_lt_of_pos x hs
    have hb : stop ≤ start + step * (x / step) := by omega
    linarith [hb, mul_comm (x / step) step]
  case isFalse h =>
    have h1 : ¬start < stop := by tauto
    simp only [Nat.cast_zero, zero_mul]
    omega

/-- The sequential loop surfaces the first failing fetch: after a prefix
of successful chunks, a failing chunk yields that error, whatever comes
later in the offset list. -/
lemma fetchSeq_error_of_prefix {Row : Type} (f : Fetch Row) (L : Int) (e : PyError)
    (o : Int) (l2 : List Int) :
    ∀ (l1 : List Int) (acc : List Row),
      (∀ x ∈ l1, ∃ p, f x L = .ok p) → f o L = .error e →
      fetchSeq f (l1 ++ o :: l2) L acc = .error e := by
  intro l1
  induction l1 with
  | nil =>
    intro acc _ hfail
    simp [fetchSeq, hfail]
  | cons a rest ih =>
    intro acc hok hfail
    obtain ⟨p, hp⟩ := hok a (by simp)
    simp only [List.cons_append, fetchSeq, hp]
    exact ih _ (fun x hx => hok x (by simp [hx])) hfail

/-- Gluing map-over-range segments: the rows `0..o` followed by the rows
`o..o+m` are the rows `0..o+m`. -/
lemma range_map_append {Row : Type} (row : Nat → Row) (o m : Nat) :
    (List.range o).map row ++ (List.range m).map (fun i => row (o + i))
      = (List.range (o + m)).map row := by
  rw [List.range_add, List.map_append, List.map_map]
  rfl

/-- Core invariant of the merge loop over an honest source: starting from
the first `min o total` rows and walking `n` offsets `o, o+L, ...`, the
loop completes with all `total` rows in offset order, provided the `n`
strides reach `total`. -/
lemma honest_fetchSeq {Row : Type} (row : Nat → Row) (total b : Nat) (L : Int)
    (hL : 0 < L) :
    ∀ (n : Nat) (o : Nat), total ≤ o + n * L.toNat →
      fetchSeq (honestFetch row total b) (pyRangeAux (o : Int) L n) L
          ((List.range (min o total)).map row)
        = .ok ((List.range total).map row) := by
  intro n
  induction n with
  | zero =>
    intro o hcov
    rw [Nat.zero_mul] at hcov
    have hmin : min o total = total := by omega
    simp [pyRangeAux, fetchSeq, hmin]
  | succ n ih =>
    intro o hcov
    rw [Nat.succ_mul] at hcov
    have hLn : ((L.toNat : Nat) : Int) = L := Int.toNat_of_nonneg (le_of_lt hL)
    have hpage : honestFetch row total b (o : Int) L
        = .ok { rows := (List.range (min L.toNat (total - o))).map (fun i => row (o + i)),
                current := ((min L.toNat (total - o) : Nat) : Int),
                total := (total : Int), rawByteSize := b } := by
      simp [honestFetch, Int.toNat_natCast]
    simp only [pyRangeAux, fetchSeq, hpage]
    have hacc : (List.range (min o total)).map row
          ++ (List.range (min L.toNat (total - o))).map (fun i => row (o + i))
        = (List.range (min (o + L.toNat) total)).map row := by
      by_cases ho : o < total
      · have h1 : min o total = o := by omega
        have h2 : o + min L.toNat (total - o) = min (o + L.toNat) total := by omega
        rw [h1, range_map_append, h2]
      · have h1 : min o total = total := by omega
        have h2 : min L.toNat (total - o) = 0 := by omega
        have h3 : min (o + L.toNat) total = total := by omega
        simp [h1, h2, h3]
    have hcast : (o : Int) + L = ((o + L.toNat : Nat) : Int) := by
      rw [Nat.cast_add, hLn]
    rw [hacc, hcast]
    exact ih (o + L.toNat) (by omega)

/-- Euclidean division of natural-number casts is natural division. -/
lemma natCast_ediv_toNat (m k : Nat) : (((m : Int)) / ((k : Int))).toNat = m / k := by
  have h : ((m : Int)) / ((k : Int)) = ((m / k : Nat) : Int) := by
    rw [Int.ofNat_tdiv, Int.tdiv_eq_ediv (by positivity) (by positivity)]
  rw [h, Int.toNat_natCast]

/-- Ceiling-division identity for Euclidean division: for positive `d`
and `L`, `(d + L - 1) / L = d / L + (1 if d % L ≠ 0 else 0)`. -/
lemma ceil_ediv_eq (d L : Int) (_hd : 0 < d) (hL : 0 < L) :
    (d + L - 1) / L = d / L + (if d % L ≠ 0 then 1 else 0) := by
  have hdm : L * (d / L) + d % L = d := Int.ediv_add_emod d L
  have hr0 : 0 ≤ d % L := Int.emod_nonneg d (by omega)
  have hrL : d % L < L := Int.emod_lt_of_pos d hL
  by_cases hr : d % L = 0
  · have h1 : d + L - 1 = (L - 1) + (d / L) * L := by linear_combination -hdm + hr
    rw [h1, Int.add_mul_ediv_right _ _ (by omega : L ≠ 0),
        Int.ediv_eq_zero_of_lt (by omega) (by omega)]
    simp [hr]
  · have h1 : d + L - 1 = (d % L - 1) + (d / L + 1) * L := by linear_combination -hdm
    rw [h1, Int.add_mul_ediv_right _ _ (by omega : L ≠ 0),
        Int.ediv_eq_zero_of_lt (by omega) (by omega)]
    simp [hr]

/-- Since the parallel and sequential folds agree, `fetchRest` reduces to
the sequential merge over the same offsets whenever the chunk limit
computation succeeds. -/
lemma fetchRest_ok {Row : Type} {fetch : Fetch Row} {reqLimit : Option Int}
    {parallel : Bool} {p : Page Row} {limit : Int}
    (h : chunkLimitE reqLimit p = .ok limit) :
    fetchRest fetch reqLimit parallel p
      = fetchSeq fetch (pyRange (initialLimitOf reqLimit) p.total limit)
          limit p.rows := by
  unfold fetchRest
  simp only [h]
  split
  · exact fetchPar_eq_fetchSeq fetch _ limit p.rows
  · rfl

/-- When the first page's raw body is non-empty and the requested limit
is either absent or positive, the chunk-limit computation succeeds with
a positive limit. -/
lemma chunkLimitE_pos {Row : Type} (reqLimit : Option Int) (p : Page Row)
    (hb : 0 < p.rawByteSize)
    (hreq : reqLimit = none ∨ ∃ l, reqLimit = some l ∧ 0 < l) :
    ∃ limit, chunkLimitE reqLimit p = .ok limit ∧ 0 < limit := by
  rcases hreq with rfl | ⟨l, rfl, hl⟩
  · have hbz : ((p.rawByteSize : Int)) ≠ 0 := by exact_mod_cast hb.ne'
    refine ⟨max 1000 ((initialLimitOf none * SIZE_LIMIT).tdiv p.rawByteSize), ?_, ?_⟩
    · simp [chunkLimitE, limitTruthy, derivedLimit, pydivTrunc, hbz, Except.map]
    · exact lt_of_lt_of_le (by norm_num) (le_max_left _ _)
  · refine ⟨l, ?_, hl⟩
    simp [chunkLimitE, limitTruthy, hl.ne']

/-! ### Claims -/

/-- C2. For every fetch source and every requested limit, the parallel
fetch/merge path of `to_dataframe` and its sequential path produce
identical results (identical row sequences on success): the futures are
created in ascending-offset order and consumed in creation order, which
is exactly the sequential merge fold. -/
theorem toDataframe_parallel_eq_sequential {Row : Type} (fetch : Fetch Row)
    (reqLimit : Option Int) :
    toDataframe fetch reqLimit true = toDataframe fetch reqLimit false := by
  unfold toDataframe
  cases fetch 0 (initialLimitOf reqLimit) with
  | error e => rfl
  | ok firstPage =>
    by_cases hct : firstPage.current = firstPage.total
    · simp [hct]
    · simp only [hct, if_false]
      unfold fetchRest
      cases chunkLimitE reqLimit firstPage with
      | error e => rfl
      | ok limit =>
        by_cases hit :
            1 < itTotalCode firstPage.total (initialLimitOf reqLimit) limit
        · simp [hit, fetchPar_eq_fetchSeq]
        · simp [hit]

/-- C4. When no explicit limit is requested, the derived chunk limit of
`to_dataframe` equals
`max(minChunk, floor(initialLimit * sizeTargetBytes / rawByteSize))`
with `minChunk = 1000` and `sizeTargetBytes = 10000000`; in particular
`initialLimit = 1000` and `rawByteSize = 2000000` give chunk limit
`5000`. -/
theorem derivedLimit_eq_spec_formula (I : Int) (b : Nat) (hI : 0 ≤ I)
    (hb : 0 < b) :
    derivedLimit I b = .ok (max 1000 ((I * 10000000).fdiv (b : Int)))
      ∧ derivedLimit 1000 2000000 = .ok 5000 := by
  constructor
  · have hbz : (b : Int) ≠ 0 := by exact_mod_cast Nat.pos_iff_ne_zero.mp hb
    have hnum : 0 ≤ I * 10000000 := by positivity
    have hb' : (0 : Int) ≤ (b : Int) := by positivity
    have htd : (I * 10000000).tdiv (b : Int) = (I * 10000000).fdiv (b : Int) := by
      rw [Int.tdiv_eq_ediv hnum hb', Int.fdiv_eq_ediv _ hb']
    simp [derivedLimit, pydivTrunc, SIZE_LIMIT, hbz, htd, Except.map]
  · rfl

/-- Witness for C4 at the spec's concrete input. -/
theorem derivedLimit_eq_spec_formula_witness :
    (derivedLimit 1000 2000000
        = .ok (max 1000 ((1000 * 10000000 : Int).fdiv ((2000000 : Nat) : Int)))
      ∧ derivedLimit 1000 2000000 = .ok 5000) :=
  derivedLimit_eq_spec_formula 1000 2000000 (by decide) (by decide)

/-- C9. `Report.__init__` rejects the empty-string id with `ValueError`
before performing any remote call, whatever calls the rest of the
constructor would make. -/
theorem reportInit_empty_id_fails_fast (rest : List RemoteCall) :
    reportInit "" rest = (.error .valueError, []) := rfl

/-- C10. On a non-cross-tab report, `apply_filters` with `attributes`,
`metrics` and `attr_elements` all `None` is a no-op on the report state
(filter selections and `instance_id` unchanged), whatever the `Filter`
object's own select/clear operations do. -/
theorem applyFilters_all_none_noop
    (applySel : Option (List String) → Option (List String) → Option (List String) →
      String → FilterSel → FilterSel)
    (operator : String) (s : ReportState) (h : s.crossTab = false) :
    applyFilters applySel none none none operator s = s := by
  simp [applyFilters, h]

/-- Witness for C10: a concrete non-cross-tab state is left unchanged. -/
theorem applyFilters_all_none_noop_witness :
    applyFilters (fun _ _ _ _ f => f) none none none "In"
        ⟨false, none, ⟨["a1"], ["m1"], ["e1"], "In"⟩, some "inst-1"⟩
      = ⟨false, none, ⟨["a1"], ["m1"], ["e1"], "In"⟩, some "inst-1"⟩ :=
  applyFilters_all_none_noop (fun _ _ _ _ f => f) "In"
    ⟨false, none, ⟨["a1"], ["m1"], ["e1"], "In"⟩, some "inst-1"⟩ rfl

/-- C7. When the first page already contains all rows (`totalCount`
equals the initial page's row count), `to_dataframe` returns
immediately: the result is exactly the initial page's rows, and zero
additional chunk fetches are issued — any source `g` that agrees with
`fetch` on the initial request produces the same result, whatever `g`
does at any other offset. -/
theorem single_page_short_circuit {Row : Type} (fetch g : Fetch Row)
    (reqLimit : Option Int) (par : Bool) (p : Page Row)
    (hfetch : fetch 0 (initialLimitOf reqLimit) = .ok p)
    (hg : g 0 (initialLimitOf reqLimit) = .ok p)
    (hcur : p.current = (p.rows.length : Int))
    (htot : p.total = (p.rows.length : Int)) :
    toDataframe fetch reqLimit par = .ok p.rows
      ∧ toDataframe g reqLimit par = toDataframe fetch reqLimit par := by
  have hct : p.current = p.total := by rw [hcur, htot]
  constructor
  · unfold toDataframe
    rw [hfetch]
    simp [hct]
  · unfold toDataframe
    rw [hfetch, hg]
    simp [hct]

/-- Witness for C7: a 3-row single-page source; the second source fails
at every offset other than the initial request yet gives the same
result, witnessing that no further fetch is consulted. -/
theorem single_page_short_circuit_witness :
    toDataframe (honestFetch (fun i => i) 3 10) none false = .ok [0, 1, 2]
      ∧ toDataframe
            (fun o l => if o = 0 ∧ l = 1000 then honestFetch (fun i => i) 3 10 o l
              else .error (.httpError o l)) none false
          = toDataframe (honestFetch (fun i => i) 3 10) none false :=
  single_page_short_circuit (honestFetch (fun i => i) 3 10)
    (fun o l => if o = 0 ∧ l = 1000 then honestFetch (fun i => i) 3 10 o l
      else .error (.httpError o l))
    none false ⟨[0, 1, 2], 3, 3, 10⟩ rfl rfl rfl rfl

/-- C5. The first failing chunk aborts the fetch/merge: in the
sequential path the loop stops at the failing offset and surfaces the
underlying error, and no later offset is ever fetched — a source `g`
agreeing with `fetch` up to and including the failing chunk yields the
same error regardless of what `g` does at the later offsets; the
parallel path likewise fails with the same error and returns no rows. -/
theorem fetch_failure_aborts {Row : Type} (fetch g : Fetch Row) (l1 l2 : List Int)
    (o L : Int) (e : PyError) (acc : List Row)
    (hok : ∀ x ∈ l1, ∃ p, fetch x L = .ok p)
    (hfail : fetch o L = .error e)
    (hagree : ∀ x ∈ l1, g x L = fetch x L)
    (hgfail : g o L = .error e) :
    fetchSeq fetch (l1 ++ o :: l2) L acc = .error e
      ∧ fetchPar fetch (l1 ++ o :: l2) L acc = .error e
      ∧ fetchSeq g (l1 ++ o :: l2) L acc = .error e
      ∧ fetchPar g (l1 ++ o :: l2) L acc = .error e := by
  have hgok : ∀ x ∈ l1, ∃ p, g x L = .ok p := by
    intro x hx
    obtain ⟨p, hp⟩ := hok x hx
    exact ⟨p, (hagree x hx).trans hp⟩
  refine ⟨?_, ?_, ?_, ?_⟩
  · exact fetchSeq_error_of_prefix fetch L e o l2 l1 acc hok hfail
  · rw [fetchPar_eq_fetchSeq]
    exact fetchSeq_error_of_prefix fetch L e o l2 l1 acc hok hfail
  · exact fetchSeq_error_of_prefix g L e o l2 l1 acc hgok hgfail
  · rw [fetchPar_eq_fetchSeq]
    exact fetchSeq_error_of_prefix g L e o l2 l1 acc hgok hgfail

/-- Witness for C5: chunks at offsets 3 and 5 succeed, the chunk at
offset 7 fails; the second source returns data at the later offsets 9
and 11 yet the run still fails with the same error. -/
theorem fetch_failure_aborts_witness :
    fetchSeq (fun off lim => if off ≤ 5 then .ok ⟨[off.toNat], 1, 5, 10⟩
        else .error (.httpError off lim)) ([3, 5] ++ 7 :: [9, 11]) 2 []
      = .error (.httpError 7 2)
    ∧ fetchPar (fun off lim => if off ≤ 5 then .ok ⟨[off.toNat], 1, 5, 10⟩
        else .error (.httpError off lim)) ([3, 5] ++ 7 :: [9, 11]) 2 []
      = .error (.httpError 7 2)
    ∧ fetchSeq (fun off _lim => if off ≤ 5 then .ok ⟨[off.toNat], 1, 5, 10⟩
        else if off = 7 then .error (.httpError 7 2) else .ok ⟨[99], 1, 5, 10⟩)
        ([3, 5] ++ 7 :: [9, 11]) 2 []
      = .error (.httpError 7 2)
    ∧ fetchPar (fun off _lim => if off ≤ 5 then .ok ⟨[off.toNat], 1, 5, 10⟩
        else if off = 7 then .error (.httpError 7 2) else .ok ⟨[99], 1, 5, 10⟩)
        ([3, 5] ++ 7 :: [9, 11]) 2 []
      = .error (.httpError 7 2) :=
  fetch_failure_aborts
    (fun off lim => if off ≤ 5 then .ok ⟨[off.toNat], 1, 5, 10⟩
      else .error (.httpError off lim))
    (fun off _lim => if off ≤ 5 then .ok ⟨[off.toNat], 1, 5, 10⟩
      else if off = 7 then .error (.httpError 7 2) else .ok ⟨[99], 1, 5, 10⟩)
    [3, 5] [9, 11] 7 2 (.httpError 7 2) []
    (by
      intro x hx
      simp only [List.mem_cons, List.not_mem_nil, or_false] at hx
      rcases hx with rfl | rfl <;> exact ⟨_, rfl⟩)
    rfl
    (by
      intro x hx
      simp only [List.mem_cons, List.not_mem_nil, or_false] at hx
      rcases hx with rfl | rfl <;> rfl)
    rfl

/-- C3 counterexample. A source reporting `totalCount = 100` on the
first page and `totalCount = 150` on the second does NOT fail: the run
completes and returns 100 rows, the later page's `total` being ignored
— there is no `InconsistentTotal` check anywhere in `to_dataframe`. -/
theorem inconsistentTotal_counterexample :
    toDataframe (incFetch 150) (some 50) false = .ok (List.range 100) := rfl

/-- C3 amended. A page after the first reporting a different
`totalCount` is silently ignored: for every value `t2` reported by the
later pages, materialization succeeds with the plan fixed from the first
page's `totalCount`, and no error (in particular no `InconsistentTotal`,
which does not exist in the code) is raised. -/
theorem toDataframe_ignores_later_totals (t2 : Int) :
    toDataframe (incFetch t2) (some 50) false = .ok (List.range 100) := by
  have h : toDataframe (incFetch t2) (some 50) false
      = .ok (List.range 50 ++ (List.range 50).map (fun i => 50 + i)) := rfl
  rw [h, show (100 : Nat) = 50 + 50 from rfl, List.range_add]

/-- C8 counterexample. A first page reporting a negative
`totalCount = -5` is not rejected: no `InvalidPlan` (or any other)
error is raised; the run completes and returns the first page's rows. -/
theorem invalidPlan_counterexample :
    toDataframe negTotalFetch (some 10) false = .ok (List.range 10) := rfl

/-- C8 amended. `to_dataframe` performs no plan validation: a negative
first-page `totalCount` is accepted (the run completes with the initial
rows and zero additional fetches), and a first page with
`rawByteSize = 0` fails — only when the chunk limit must be derived —
with an untyped `ZeroDivisionError`, not a typed `InvalidPlan`. -/
theorem no_plan_validation :
    toDataframe negTotalFetch (some 10) false = .ok (List.range 10)
      ∧ toDataframe zeroByteFetch none false = .error .zeroDivision :=
  ⟨rfl, rfl⟩

/-- C6. The number of additional fetch iterations — the length of the
offset list `range(initial_limit, paging.total, limit)` walked by both
fetch paths — is 0 when `totalCount ≤ initialLimit`, and equals
`ceil((totalCount - initialLimit) / chunkLimit)` (written as the natural
ceiling-division `(d + L - 1) / L`) when `totalCount > initialLimit`;
moreover the code's own `it_total` expression (truncating division plus
remainder test) computes exactly that count. -/
theorem iteration_count_eq_ceil (I T L : Int) (_hI : 0 ≤ I) (hL : 0 < L) :
    (T ≤ I → (pyRange I T L).length = 0)
      ∧ (I < T →
        (pyRange I T L).length = ((T - I).toNat + L.toNat - 1) / L.toNat)
      ∧ (I < T → itTotalCode T I L = ((pyRange I T L).length : Int)) := by
  have hlen : (pyRange I T L).length = pyRangeLen I T L :=
    pyRangeAux_length I L (pyRangeLen I T L)
  refine ⟨?_, ?_, ?_⟩
  · intro hTI
    rw [hlen]
    unfold pyRangeLen
    rw [if_neg (by omega)]
  · intro hIT
    rw [hlen]
    unfold pyRangeLen
    rw [if_pos (⟨hIT, hL⟩ : I < T ∧ 0 < L), Int.fdiv_eq_ediv _ (le_of_lt hL)]
    have hLn : ((L.toNat : Nat) : Int) = L := Int.toNat_of_nonneg (le_of_lt hL)
    have h1 : T - I + L - 1 = (((T - I).toNat + L.toNat - 1 : Nat) : Int) := by
      omega
    have h3 : (((T - I).toNat + L.toNat - 1 : Nat) : Int) / ((L.toNat : Nat) : Int)
        = (((T - I).toNat + L.toNat - 1 : Nat) : Int) / L := by
      rw [hLn]
    rw [h1, ← h3, natCast_ediv_toNat]
  · intro hIT
    rw [hlen]
    unfold pyRangeLen
    rw [if_pos (⟨hIT, hL⟩ : I < T ∧ 0 < L), Int.fdiv_eq_ediv _ (le_of_lt hL)]
    have hnn : 0 ≤ (T - I + L - 1) / L := Int.ediv_nonneg (by omega) (le_of_lt hL)
    rw [Int.toNat_of_nonneg hnn]
    unfold itTotalCode
    rw [Int.tdiv_eq_ediv (by omega) (le_of_lt hL), Int.fmod_eq_emod _ (le_of_lt hL)]
    exact (ceil_ediv_eq (T - I) L (by omega) hL).symm

/-- Witness for C6: `initialLimit = 1000`, `totalCount = 3001`,
`chunkLimit = 1000` give 3 additional iterations, matching both the
ceiling formula and the code's `it_total` expression. -/
theorem iteration_count_eq_ceil_witness :
    (0 : Int) ≤ 1000 ∧ (0 : Int) < 1000
      ∧ (((3001 : Int) ≤ 1000 → (pyRange 1000 3001 1000).length = 0)
        ∧ ((1000 : Int) < 3001 →
          (pyRange 1000 3001 1000).length
            = (((3001 : Int) - 1000).toNat + (1000 : Int).toNat - 1)
                / (1000 : Int).toNat)
        ∧ ((1000 : Int) < 3001 →
          itTotalCode 3001 1000 1000 = ((pyRange 1000 3001 1000).length : Int))) :=
  ⟨by decide, by decide, iteration_count_eq_ceil 1000 3001 1000 (by decide) (by decide)⟩

/-- C1. For every honest source (same `totalCount` on every page, rows
served in offset order), every row family, every positive requested
limit (or none) and both fetch strategies, `to_dataframe` succeeds and
returns exactly the rows at source offsets `0, 1, ..., totalCount - 1`
in that order: the table has `totalCount` rows, row `i` is the row at
source offset `i`, and no offset is duplicated or missing. -/
theorem toDataframe_honest_complete {Row : Type} (row : Nat → Row)
    (total byteSize : Nat) (reqLimit : Option Int) (par : Bool)
    (hb : 0 < byteSize)
    (hreq : reqLimit = none ∨ ∃ l, reqLimit = some l ∧ 0 < l) :
    toDataframe (honestFetch row total byteSize) reqLimit par
      = .ok ((List.range total).map row) := by
  have hI : 0 < initialLimitOf reqLimit := by
    rcases hreq with rfl | ⟨l, rfl, hl⟩
    · decide
    · simpa [initialLimitOf, limitTruthy, hl.ne'] using hl
  have hfirst : honestFetch row total byteSize 0 (initialLimitOf reqLimit)
      = .ok { rows := (List.range (min (initialLimitOf reqLimit).toNat total)).map row,
              current := ((min (initialLimitOf reqLimit).toNat total : Nat) : Int),
              total := (total : Int), rawByteSize := byteSize } := by
    simp [honestFetch]
  simp only [toDataframe, hfirst, Nat.cast_inj]
  by_cases hct : min (initialLimitOf reqLimit).toNat total = total
  · rw [if_pos hct, hct]
  · rw [if_neg hct]
    obtain ⟨limit, hcl, hlimpos⟩ :=
      chunkLimitE_pos reqLimit
        ({ rows := (List.range (min (initialLimitOf reqLimit).toNat total)).map row,
           current := ((min (initialLimitOf reqLimit).toNat total : Nat) : Int),
           total := (total : Int), rawByteSize := byteSize } : Page Row)
        hb hreq
    have hstep : fetchRest (honestFetch row total byteSize) reqLimit par
        ({ rows := (List.range (min (initialLimitOf reqLimit).toNat total)).map row,
           current := ((min (initialLimitOf reqLimit).toNat total : Nat) : Int),
           total := (total : Int), rawByteSize := byteSize } : Page Row)
        = fetchSeq (honestFetch row total byteSize)
            (pyRange (initialLimitOf reqLimit) ((total : Nat) : Int) limit) limit
            ((List.range (min (initialLimitOf reqLimit).toNat total)).map row) :=
      fetchRest_ok hcl
    rw [hstep]
    have hIeq : initialLimitOf reqLimit = (((initialLimitOf reqLimit).toNat : Nat) : Int) :=
      (Int.toNat_of_nonneg (le_of_lt hI)).symm
    set In := (initialLimitOf reqLimit).toNat with hIn
    rw [hIeq]
    unfold pyRange
    set n := pyRangeLen ((In : Nat) : Int) ((total : Nat) : Int) limit with hn
    have hcov : total ≤ In + n * limit.toNat := by
      have hc := pyRangeLen_cover ((In : Nat) : Int) ((total : Nat) : Int) limit hlimpos
      rw [← hn] at hc
      have hlc : ((limit.toNat : Nat) : Int) = limit :=
        Int.toNat_of_nonneg (le_of_lt hlimpos)
      rw [← hlc] at hc
      exact_mod_cast hc
    exact honest_fetchSeq row total byteSize limit hlimpos n In hcov

/-- Witness for C1: a 7-row source fetched with requested chunk limit 2
on the parallel path yields exactly rows 0..6 in order. -/
theorem toDataframe_honest_complete_witness :
    (0 : Nat) < 5
      ∧ toDataframe (honestFetch (fun i => i) 7 5) (some 2) true
          = .ok ((List.range 7).map (fun i => i)) :=
  ⟨by decide,
    toDataframe_honest_complete (fun i => i) 7 5 (some 2) true (by decide)
      (Or.inr ⟨2, rfl, by decide⟩)⟩

end Mstrio
